import Mathlib

/-!
Verification of the ccRemainingTokenBurner decision engine and cycle
controller, shallowly embedded from the JavaScript sources.

Numbers are modelled as rationals (`ℚ`); JavaScript `Math.round(x*100)/100`
becomes `roundCents`, `Math.ceil` becomes `Int.ceil`, and `Math.floor` on
positive integers becomes integer division.  Absent (`undefined`/`null`)
JSON fields are modelled as `Option`.  Reason strings produced by the
decision engines interpolate a fixed template with the numeric/text data of
the branch taken; they are modelled by inductive `Reason` types carrying
exactly that interpolated data (two reasons are equal iff the rendered
strings are equal).  The current wall clock (`Date.now()`, milliseconds) is
an explicit `now : ℚ` parameter wherever the source reads it.
-/

/-- Rounding to cents, from `Math.round(x * 100) / 100` in
`src/lib/threshold.js`.  JavaScript `Math.round` rounds half toward
positive infinity, i.e. `Math.round x = ⌊x + 1/2⌋`. -/
def roundCents (q : ℚ) : ℚ := ((⌊q * 100 + 1/2⌋ : ℤ) : ℚ) / 100

/-! ## Billing-block variant of `evaluate` (src/lib/threshold.js, lines 5-48) -/

/-- The active billing block as consumed by `evaluate`:
`block.remainingMinutes` and `block.totalCost`. -/
structure BillingBlock where
  remainingMinutes : ℚ
  totalCost : ℚ
deriving DecidableEq

/-- Model of `config.thresholds` of the billing-block variant; every field optional. -/
structure BillingThresholds where
  minRemainingMinutes : Option ℚ
  maxBlockCostUSD : Option ℚ
  weeklyBudgetUSD : Option ℚ
deriving DecidableEq

/-- The part of the config read by the billing-block `evaluate`
(`config.thresholds || {}`). -/
structure BillingConfig where
  thresholds : Option BillingThresholds
deriving DecidableEq

/-- Source: `const minRemaining = t.minRemainingMinutes ?? 60`. -/
def effMinRemaining (config : BillingConfig) : ℚ :=
  ((config.thresholds.getD ⟨none, none, none⟩).minRemainingMinutes).getD 60

/-- Source: `const maxBlockCost = t.maxBlockCostUSD ?? 15.0`. -/
def effMaxBlockCost (config : BillingConfig) : ℚ :=
  ((config.thresholds.getD ⟨none, none, none⟩).maxBlockCostUSD).getD 15

/-- Source: `const weeklyBudget = t.weeklyBudgetUSD ?? 100.0`. -/
def effWeeklyBudget (config : BillingConfig) : ℚ :=
  ((config.thresholds.getD ⟨none, none, none⟩).weeklyBudgetUSD).getD 100

/-- The data interpolated into the `reason` string of each return of the
billing-block `evaluate`, one constructor per `return` statement. -/
inductive BillingReason where
  | noActiveBlock
  | tooFewMinutes (remaining minRemaining : ℚ)
  | blockCostExceedsMax (totalCost maxBlockCost : ℚ)
  | weeklyOverBudget (weeklyCost weeklyBudget : ℚ)
  | blockUnderused (totalCost maxBlockCost remaining availableBudget : ℚ)
deriving DecidableEq

/-- Decision record of the billing-block `evaluate`:
`{ shouldRun, reason, availableBudget }`. -/
structure BillingDecision where
  shouldRun : Bool
  reason : BillingReason
  availableBudget : ℚ
deriving DecidableEq

/-- The billing-block `evaluate({ block, weeklyCost, config })` from
`src/lib/threshold.js` lines 5-48, with the destructured arguments passed
separately.  `block` is `none` when the JavaScript value is `null`. -/
def evaluateBilling (block : Option BillingBlock) (weeklyCost : ℚ)
    (config : BillingConfig) : BillingDecision :=
  match block with
  | none =>
      { shouldRun := false, reason := BillingReason.noActiveBlock, availableBudget := 0 }
  | some b =>
      if b.remainingMinutes < effMinRemaining config then
        { shouldRun := false
          reason := BillingReason.tooFewMinutes b.remainingMinutes (effMinRemaining config)
          availableBudget := 0 }
      else if b.totalCost > effMaxBlockCost config then
        { shouldRun := false
          reason := BillingReason.blockCostExceedsMax b.totalCost (effMaxBlockCost config)
          availableBudget := 0 }
      else if weeklyCost ≥ effWeeklyBudget config then
        { shouldRun := false
          reason := BillingReason.weeklyOverBudget weeklyCost (effWeeklyBudget config)
          availableBudget := 0 }
      else
        let fromWeekly := effWeeklyBudget config - weeklyCost
        let fromBlock := effMaxBlockCost config - b.totalCost
        let availableBudget := roundCents (min fromWeekly fromBlock)
        { shouldRun := true
          reason := BillingReason.blockUnderused b.totalCost (effMaxBlockCost config)
            b.remainingMinutes availableBudget
          availableBudget := availableBudget }

/-! ## Quiet hours (src/lib/threshold.js, lines 54-73) -/

/-- Model of `str.split` at colons on the character list of the string: splits at every
colon, keeping empty segments, and yields `[""]` for the empty string,
exactly as the JavaScript `split`. -/
def splitColons : List Char → List (List Char)
  | [] => [[]]
  | c :: rest =>
      let r := splitColons rest
      if c = ':' then [] :: r
      else (c :: r.headD []) :: r.tail

/-- Decimal value of a digit string, `none` on the empty string or any
non-digit character — the cases where the subsequent `?? 0` / `|| 0`
defaulting applies for the inputs `isQuietHours` receives. -/
def decValAux : List Char → ℕ → Option ℕ
  | [], acc => some acc
  | c :: rest, acc =>
      if c.isDigit then decValAux rest (acc * 10 + (c.toNat - 48)) else none

/-- See `decValAux`: `none` for `[]`, else the decimal value. -/
def decVal? (cs : List Char) : Option ℕ :=
  match cs with
  | [] => none
  | _ => decValAux cs 0

/-- Model of `parseTime` from `isQuietHours`:
`const [h, m] = str.split(':').map(Number); return h * 60 + (m || 0)`.
`Number` applied to the digit substrings the program receives is modelled
with `decVal?`, defaulting to 0 exactly as `Number` of the empty string being 0 and `m || 0`
do. -/
def parseTime (str : String) : ℕ :=
  let parts := (splitColons str.toList).map (fun p => (decVal? p).getD 0)
  (parts.headD 0) * 60 + (parts.getD 1 0)

/-- Model of `isQuietHours(quietStart, quietEnd)` from `src/lib/threshold.js`.
The ambient read `now.getHours() * 60 + now.getMinutes()` is the explicit
parameter `currentMinutes` (always in `[0, 1440)` for a real clock). -/
def isQuietHours (quietStart quietEnd : Option String) (currentMinutes : ℕ) : Bool :=
  match quietStart, quietEnd with
  | some qs, some qe =>
      let start := parseTime qs
      let endM := parseTime qe
      if start ≤ endM then
        decide (start ≤ currentMinutes) && decide (currentMinutes < endM)
      else
        decide (start ≤ currentMinutes) || decide (currentMinutes < endM)
  | _, _ => false

/-! ## Rate-limit-window variant of `evaluate` (src/lib/threshold.js, lines 80-161) -/

/-- One rate-limit window `{ utilization, status, reset }` (reset is an
epoch time in seconds). -/
structure RLWindow where
  utilization : Option ℚ
  status : Option String
  reset : Option ℚ
deriving DecidableEq

/-- Model of `rateLimits.meta` as read by `evaluate` (`meta.representativeClaim`). -/
structure RLMeta where
  representativeClaim : Option String
deriving DecidableEq

/-- The rate-limit snapshot consumed by `evaluate`.  `windows` is the
ordered key/value list of the `windows` object (JavaScript objects
preserve string-key insertion order); an absent `windows` object is
modelled as the empty list, which the source treats identically. -/
structure RateLimits where
  windows : List (String × RLWindow)
  meta : RLMeta
  statusCode : Option ℕ
deriving DecidableEq

/-- Model of `config.thresholds` of the rate-limit variant. -/
structure RLThresholds where
  maxUtilization : Option ℚ
deriving DecidableEq

/-- The part of the config read by the rate-limit `evaluate`. -/
structure RLConfig where
  thresholds : Option RLThresholds
deriving DecidableEq

/-- Source: `const maxUtil = t.maxUtilization ?? 0.80`. -/
def effMaxUtilization (config : RLConfig) : ℚ :=
  ((config.thresholds.getD ⟨none⟩).maxUtilization).getD (4/5)

/-- Model of `formatDuration(ms)` from `src/lib/threshold.js`: renders a
millisecond count as `now` / `in Nm` / `in Nh Mm` / `in Nd Mh`.
`Math.ceil` is `Int.ceil`; `Math.floor` and `%` act on the positive
integer `totalMin`, where they agree with integer division/remainder. -/
def formatDuration (ms : ℚ) : String :=
  if ms ≤ 0 then ("now")
  else if (⌈ms / 60000⌉ : ℤ) < 60 then ("in ") ++ toString (⌈ms / 60000⌉ : ℤ) ++ ("m")
  else if (⌈ms / 60000⌉ : ℤ) / 60 < 24 then
    ("in ") ++ toString ((⌈ms / 60000⌉ : ℤ) / 60) ++ ("h ")
      ++ toString ((⌈ms / 60000⌉ : ℤ) % 60) ++ ("m")
  else
    ("in ") ++ toString ((⌈ms / 60000⌉ : ℤ) / 60 / 24) ++ ("d ")
      ++ toString ((⌈ms / 60000⌉ : ℤ) / 60 % 24) ++ ("h")

/-- The guard `data.status` truthy and not equal to `allowed` of the blocked-
window loop: the status must be truthy (present and non-empty) and differ
from `allowed`. -/
def isBlockedStatus (status : Option String) : Bool :=
  match status with
  | none => false
  | some s => (!(s == (""))) && (!(s == ("allowed")))

/-- The `for (const [name, data] of Object.entries(windows))` loop that
returns on the first window whose status is blocked. -/
def findBlocked : List (String × RLWindow) → Option (String × RLWindow)
  | [] => none
  | p :: rest => if isBlockedStatus p.2.status then some p else findBlocked rest

/-- Key lookup `windows[bindingName]` on the ordered entry list. -/
def lookupWindow (windows : List (String × RLWindow)) (name : String) : Option RLWindow :=
  match windows with
  | [] => none
  | p :: rest => if p.1 == name then some p.2 else lookupWindow rest name

/-- Model of `Object.entries(windows).sort(([,a],[,b]) => (b.utilization ?? 0) - (a.utilization ?? 0))[0]`:
JavaScript `Array.sort` is stable, so the first element of the
descending-sorted list is the earliest entry attaining the maximum
`utilization ?? 0`. -/
def maxByUtil : List (String × RLWindow) → Option (String × RLWindow)
  | [] => none
  | p :: rest =>
      match maxByUtil rest with
      | none => some p
      | some q =>
          if (q.2.utilization.getD 0) > (p.2.utilization.getD 0) then some q else some p

/-- The data interpolated into the `reason` string of each return of the
rate-limit `evaluate`, one constructor per `return` statement.  For the
run branch, `resetInfo` is the rendered `, resets <duration>` suffix when
present (`formatDuration` applied to `reset * 1000 - Date.now()`). -/
inductive RLReason where
  | fetchFailed
  | rateLimited429
  | noWindows
  | windowBlocked (name status : String) (utilization : Option ℚ)
  | noUsableWindow
  | overThreshold (name : String) (utilization maxUtilization : ℚ)
  | capacityAvailable (name : String) (utilization : ℚ) (resetInfo : Option String)
deriving DecidableEq

/-- Decision record of the rate-limit `evaluate`:
`{ shouldRun, reason, bindingWindow, utilization }`. -/
structure RLDecision where
  shouldRun : Bool
  reason : RLReason
  bindingWindow : Option String
  utilization : Option ℚ
deriving DecidableEq

/-- The binding-window determination of the rate-limit `evaluate`
(`src/lib/threshold.js` lines 119-131): prefer `meta.representativeClaim`
when truthy and present in `windows`, else fall back to the stable-sorted
highest-utilization window. -/
def activeWindow (rl : RateLimits) : Option (String × RLWindow) :=
  match rl.meta.representativeClaim with
  | some bn =>
      if bn == ("") then maxByUtil rl.windows
      else
        match lookupWindow rl.windows bn with
        | some w => some (bn, w)
        | none => maxByUtil rl.windows
  | none => maxByUtil rl.windows

/-- The `resetInfo` computation of the run branch
(`src/lib/threshold.js` lines 151-157): when `activeWindow.reset` is
truthy (present, nonzero) and `reset * 1000 - Date.now()` is positive,
the rendered `resets <duration>` suffix, else nothing. -/
def resetSuffix (reset : Option ℚ) (now : ℚ) : Option String :=
  match reset with
  | some r =>
      if r = 0 then none
      else if r * 1000 - now > 0 then some (formatDuration (r * 1000 - now)) else none
  | none => none

/-- The rate-limit `evaluate({ rateLimits, config })` from
`src/lib/threshold.js` lines 80-161.  `rateLimits` is `none` when the
fetch failed (`null`); `now` is the ambient `Date.now()` read in the run
branch, in milliseconds.  The source's local `const util = activeWindow.utilization ?? 0`
is inlined as `aw.2.utilization.getD 0`. -/
def evaluateRL (rateLimits : Option RateLimits) (config : RLConfig) (now : ℚ) : RLDecision :=
  match rateLimits with
  | none =>
      { shouldRun := false, reason := RLReason.fetchFailed
        bindingWindow := none, utilization := none }
  | some rl =>
      if rl.statusCode = some 429 then
        { shouldRun := false, reason := RLReason.rateLimited429
          bindingWindow := none, utilization := none }
      else if rl.windows.isEmpty then
        { shouldRun := false, reason := RLReason.noWindows
          bindingWindow := none, utilization := none }
      else
        match findBlocked rl.windows with
        | some p =>
            { shouldRun := false
              reason := RLReason.windowBlocked p.1 (p.2.status.getD ("")) p.2.utilization
              bindingWindow := some p.1
              utilization := p.2.utilization }
        | none =>
            match activeWindow rl with
            | none =>
                { shouldRun := false, reason := RLReason.noUsableWindow
                  bindingWindow := none, utilization := none }
            | some aw =>
                if aw.2.utilization.getD 0 ≥ effMaxUtilization config then
                  { shouldRun := false
                    reason := RLReason.overThreshold aw.1 (aw.2.utilization.getD 0)
                      (effMaxUtilization config)
                    bindingWindow := some aw.1
                    utilization := some (aw.2.utilization.getD 0) }
                else
                  { shouldRun := true
                    reason := RLReason.capacityAvailable aw.1 (aw.2.utilization.getD 0)
                      (resetSuffix aw.2.reset now)
                    bindingWindow := some aw.1
                    utilization := some (aw.2.utilization.getD 0) }

/-! ## Task queue manager (src/lib/task-manager.js) -/

/-- A queue entry, restricted to the fields the verified code reads:
`id`, `name`, `status`, `priority`, `maxBudgetUSD`, `repeat`.  A missing
or otherwise-falsy `repeat` is modelled as `false`, which is how the
truthiness test `task.repeat ? ... : ...` treats it. -/
structure BurnTask where
  id : String
  name : String
  status : String
  priority : Option ℤ
  maxBudgetUSD : Option ℚ
  «repeat» : Bool
deriving DecidableEq

/-- The parsed tasks file: `data.tasks` may be absent (`data.tasks || []`). -/
structure TaskData where
  tasks : Option (List BurnTask)
deriving DecidableEq

/-- The sort key `t.priority ?? 999`. -/
def taskPrio (t : BurnTask) : ℤ := t.priority.getD 999

/-- The budget filter predicate of `pickTask`:
`if (t.maxBudgetUSD && t.maxBudgetUSD > availableBudget) return false`.
The task is excluded only when `maxBudgetUSD` is truthy (present and
nonzero) and the comparison with a *present* budget succeeds — when
`availableBudget` is `undefined` (`none`), `x > undefined` is `false`. -/
def budgetExcluded (t : BurnTask) (availableBudget : Option ℚ) : Bool :=
  match t.maxBudgetUSD, availableBudget with
  | some b, some a => (!(b == 0)) && decide (b > a)
  | _, _ => false

/-- First element of a list attaining the minimal key `k`: the value of
`list.sort((a, b) => k a - k b)[0]` for JavaScript's stable `Array.sort`. -/
def firstMinBy {α : Type} (k : α → ℤ) : List α → Option α
  | [] => none
  | x :: rest =>
      match firstMinBy k rest with
      | none => some x
      | some y => if k y < k x then some y else some x

/-- The `candidates` list of `pickTask`: filter to status `on`,
then filter by the budget guard. -/
def candidates (data : TaskData) (availableBudget : Option ℚ) : List BurnTask :=
  ((data.tasks.getD []).filter (fun t => t.status == ("on"))).filter
    (fun t => !budgetExcluded t availableBudget)

/-- Model of `pickTask(data, availableBudget)` from `src/lib/task-manager.js`
lines 34-47: filter to status `on`, filter by the budget guard,
stable-sort ascending by `priority ?? 999`, take the head
(`candidates[0] || null`). -/
def pickTask (data : TaskData) (availableBudget : Option ℚ) : Option BurnTask :=
  firstMinBy taskPrio (candidates data availableBudget)

/-- Model of `(data.tasks || []).find(t => t.id === taskId)` followed by a status
overwrite: rewrites the status of the first task with the given id. -/
def setStatusFirst (l : List BurnTask) (taskId s : String) : List BurnTask :=
  match l with
  | [] => []
  | t :: rest =>
      if t.id == taskId then { t with status := s } :: rest
      else t :: setStatusFirst rest taskId s

/-- Model of `updateTaskStatus(data, taskId, status)` from
`src/lib/task-manager.js`: mutates the found task in place; a no-op when
the id is absent or there is no `tasks` array. -/
def updateTaskStatus (data : TaskData) (taskId status : String) : TaskData :=
  match data.tasks with
  | none => data
  | some l => { data with tasks := some (setStatusFirst l taskId status) }

/-! ## Cycle controller (src/bin/burn.js, runCycle) -/

/-- Model of the result of `executeTask` as consumed by `runCycle`:
`{ success, costUSD, durationMs, error }`.  The executor is an external
child-process invocation; its result is an input of the cycle model. -/
structure ExecResult where
  success : Bool
  costUSD : Option ℚ
  durationMs : Option ℚ
  error : Option String
deriving DecidableEq

/-- The record passed to `appendRecord` in step 7 of `runCycle`. -/
structure HistoryRecord where
  taskId : String
  taskName : String
  success : Bool
  costUSD : Option ℚ
  durationMs : Option ℚ
  error : Option String
deriving DecidableEq

/-- Observable actions of one `runCycle` invocation, in program order:
`select` is the read-only announcement of the picked task
(the log line announcing the selected task); `persistQueue` is `saveTasks`
writing the whole queue document; `execute` is the `executeTask` child
process spawn; `appendHistory` is `appendRecord` on the history file. -/
inductive CycleEvent where
  | select (taskId : String)
  | persistQueue (q : TaskData)
  | execute (taskId : String)
  | appendHistory (r : HistoryRecord)
deriving DecidableEq

/-- Which events mutate durable state or spawn a process (`select` is
pure logging). -/
def eventMutates : CycleEvent → Bool
  | CycleEvent.select _ => false
  | _ => true

/-- Step 6 of `runCycle`:
`result.success ? (task.repeat ? on : done) : failed`. -/
def statusAfter (t : BurnTask) (res : ExecResult) : String :=
  if res.success then (if t.«repeat» then ("on") else ("done")) else ("failed")

/-- Model of `runCycle(config, tasksPath, dryRun)` from `src/bin/burn.js` lines
217-277, as a pure transformer: the queue file's parsed content is the
`queue` argument, the ambient clock is `now`, and the external
`executeTask` outcome is the `res` oracle.  It returns the ordered list
of observable events together with the final queue-file content (equal to
the input when nothing was persisted). -/
def runCycle (rateLimits : Option RateLimits) (config : RLConfig) (now : ℚ)
    (queue : TaskData) (dryRun : Bool) (res : ExecResult) :
    List CycleEvent × TaskData :=
  let decision := evaluateRL rateLimits config now
  if decision.shouldRun then
    match pickTask queue none with
    | none => ([], queue)
    | some task =>
        if dryRun then ([CycleEvent.select task.id], queue)
        else
          let q1 := updateTaskStatus queue task.id ("running")
          let q2 := updateTaskStatus q1 task.id (statusAfter task res)
          ([CycleEvent.select task.id,
            CycleEvent.persistQueue q1,
            CycleEvent.execute task.id,
            CycleEvent.persistQueue q2,
            CycleEvent.appendHistory
              ⟨task.id, task.name, res.success, res.costUSD, res.durationMs, res.error⟩],
           q2)
  else ([], queue)

/-! ## Helper lemmas -/

theorem roundCents_mono {q q' : ℚ} (h : q ≤ q') : roundCents q ≤ roundCents q' := by
  unfold roundCents
  have h2 : (⌊q * 100 + 1/2⌋ : ℤ) ≤ ⌊q' * 100 + 1/2⌋ := Int.floor_mono (by linarith)
  have h3 : ((⌊q * 100 + 1/2⌋ : ℤ) : ℚ) ≤ ((⌊q' * 100 + 1/2⌋ : ℤ) : ℚ) := by exact_mod_cast h2
  linarith

theorem roundCents_nonneg {q : ℚ} (h : 0 ≤ q) : 0 ≤ roundCents q := by
  unfold roundCents
  have h2 : (0 : ℤ) ≤ ⌊q * 100 + 1/2⌋ := by
    apply Int.le_floor.mpr
    push_cast
    linarith
  have h3 : (0 : ℚ) ≤ ((⌊q * 100 + 1/2⌋ : ℤ) : ℚ) := by exact_mod_cast h2
  linarith

theorem roundCents_zero : roundCents 0 = 0 := by
  unfold roundCents
  norm_num

theorem firstMinBy_eq_none_iff {α : Type} (k : α → ℤ) (l : List α) :
    firstMinBy k l = none ↔ l = [] := by
  cases l with
  | nil => simp [firstMinBy]
  | cons x rest =>
      simp only [firstMinBy]
      cases firstMinBy k rest with
      | none => simp
      | some y =>
          by_cases h : k y < k x <;> simp [h]

theorem firstMinBy_spec {α : Type} (k : α → ℤ) (l : List α) :
    ∀ t, firstMinBy k l = some t →
      (∀ u ∈ l, k t ≤ k u) ∧
        ∃ l1 l2, l = l1 ++ t :: l2 ∧ ∀ u ∈ l1, k t < k u := by
  induction l with
  | nil => intro t h; simp [firstMinBy] at h
  | cons x rest ih =>
      intro t h
      simp only [firstMinBy] at h
      cases hr : firstMinBy k rest with
      | none =>
          have hrest : rest = [] := (firstMinBy_eq_none_iff k rest).mp hr
          rw [hr] at h
          have hx : x = t := by simpa using h
          subst hx
          subst hrest
          exact ⟨by simp, [], [], by simp⟩
      | some y =>
          rw [hr] at h
          have h2 : (if k y < k x then some y else some x) = some t := h
          obtain ⟨hmin, l1, l2, hdec, hstrict⟩ := ih y hr
          by_cases hlt : k y < k x
          · rw [if_pos hlt] at h2
            have hy : y = t := by simpa using h2
            subst hy
            refine ⟨?_, x :: l1, l2, by simp [hdec], ?_⟩
            · intro u hu
              rcases List.mem_cons.mp hu with rfl | hu
              · exact le_of_lt hlt
              · exact hmin u hu
            · intro u hu
              rcases List.mem_cons.mp hu with rfl | hu
              · exact hlt
              · exact hstrict u hu
          · rw [if_neg hlt] at h2
            have hx : x = t := by simpa using h2
            subst hx
            push_neg at hlt
            refine ⟨?_, [], rest, by simp, by simp⟩
            intro u hu
            rcases List.mem_cons.mp hu with rfl | hu
            · exact le_refl _
            · exact le_trans hlt (hmin u hu)

theorem findBlocked_eq_none_iff (l : List (String × RLWindow)) :
    findBlocked l = none ↔ ∀ p ∈ l, isBlockedStatus p.2.status = false := by
  induction l with
  | nil => simp [findBlocked]
  | cons q rest ih =>
      by_cases h : isBlockedStatus q.2.status
      · simp [findBlocked, h]
      · simp only [findBlocked, if_neg h, ih]
        constructor
        · intro hall p hp
          rcases List.mem_cons.mp hp with rfl | hp
          · simpa using h
          · exact hall p hp
        · intro hall p hp
          exact hall p (List.mem_cons_of_mem _ hp)

theorem findBlocked_spec (l : List (String × RLWindow)) (p : String × RLWindow)
    (h : findBlocked l = some p) :
    isBlockedStatus p.2.status = true ∧
      ∃ l1 l2, l = l1 ++ p :: l2 ∧ ∀ q ∈ l1, isBlockedStatus q.2.status = false := by
  induction l with
  | nil => simp [findBlocked] at h
  | cons q rest ih =>
      simp only [findBlocked] at h
      by_cases hq : isBlockedStatus q.2.status
      · rw [if_pos hq] at h
        have : q = p := by simpa using h
        subst this
        exact ⟨hq, [], rest, by simp, by simp⟩
      · rw [if_neg hq] at h
        obtain ⟨hblk, l1, l2, hdec, hclean⟩ := ih h
        refine ⟨hblk, q :: l1, l2, by simp [hdec], ?_⟩
        intro r hr
        rcases List.mem_cons.mp hr with rfl | hr
        · simpa using hq
        · exact hclean r hr

theorem mem_of_mem_setStatusFirst {l : List BurnTask} {tid s : String} {u : BurnTask}
    (hu : u ∈ setStatusFirst l tid s) (hne : u.id ≠ tid) : u ∈ l := by
  induction l with
  | nil => simp [setStatusFirst] at hu
  | cons t rest ih =>
      simp only [setStatusFirst] at hu
      by_cases ht : t.id == tid
      · rw [if_pos ht] at hu
        rcases List.mem_cons.mp hu with rfl | hu
        · exact absurd (by simpa using ht) hne
        · exact List.mem_cons_of_mem _ hu
      · rw [if_neg ht] at hu
        rcases List.mem_cons.mp hu with rfl | hu
        · exact List.mem_cons_self _ _
        · exact List.mem_cons_of_mem _ (ih hu)

/-! ## Claim theorems -/

/-- C1: the billing-block `evaluate` tries its checks in order — no active
block, then `remainingMinutes < minRemainingMinutes`, then
`totalCost > maxBlockCostUSD`, then `weeklyCost >= weeklyBudgetUSD` — the
first failing check producing `shouldRun = false`; if all pass it returns
`shouldRun = true` with
`availableBudget = min(weeklyBudgetUSD - weeklyCost, maxBlockCostUSD - block.totalCost)`
rounded to cents. -/
theorem evaluateBilling_check_order (block : Option BillingBlock) (weeklyCost : ℚ)
    (config : BillingConfig) :
    (block = none →
      evaluateBilling block weeklyCost config =
        { shouldRun := false, reason := BillingReason.noActiveBlock, availableBudget := 0 }) ∧
    (∀ b, block = some b →
      (b.remainingMinutes < effMinRemaining config →
        evaluateBilling block weeklyCost config =
          { shouldRun := false
            reason := BillingReason.tooFewMinutes b.remainingMinutes (effMinRemaining config)
            availableBudget := 0 }) ∧
      (¬ b.remainingMinutes < effMinRemaining config →
        b.totalCost > effMaxBlockCost config →
        evaluateBilling block weeklyCost config =
          { shouldRun := false
            reason := BillingReason.blockCostExceedsMax b.totalCost (effMaxBlockCost config)
            availableBudget := 0 }) ∧
      (¬ b.remainingMinutes < effMinRemaining config →
        ¬ b.totalCost > effMaxBlockCost config →
        weeklyCost ≥ effWeeklyBudget config →
        evaluateBilling block weeklyCost config =
          { shouldRun := false
            reason := BillingReason.weeklyOverBudget weeklyCost (effWeeklyBudget config)
            availableBudget := 0 }) ∧
      (¬ b.remainingMinutes < effMinRemaining config →
        ¬ b.totalCost > effMaxBlockCost config →
        ¬ weeklyCost ≥ effWeeklyBudget config →
        evaluateBilling block weeklyCost config =
          { shouldRun := true
            reason := BillingReason.blockUnderused b.totalCost (effMaxBlockCost config)
              b.remainingMinutes
              (roundCents (min (effWeeklyBudget config - weeklyCost)
                (effMaxBlockCost config - b.totalCost)))
            availableBudget := roundCents (min (effWeeklyBudget config - weeklyCost)
              (effMaxBlockCost config - b.totalCost)) })) := by
  constructor
  · rintro rfl; rfl
  · rintro b rfl
    refine ⟨?_, ?_, ?_, ?_⟩
    · intro h1
      simp only [evaluateBilling, if_pos h1]
    · intro h1 h2
      simp only [evaluateBilling, if_neg h1, if_pos h2]
    · intro h1 h2 h3
      simp only [evaluateBilling, if_neg h1, if_neg h2, if_pos h3]
    · intro h1 h2 h3
      simp only [evaluateBilling, if_neg h1, if_neg h2, if_neg h3]

theorem roundCents_eval {q : ℚ} {n : ℤ} (h1 : (n : ℚ) ≤ q * 100 + 1/2)
    (h2 : q * 100 + 1/2 < n + 1) : roundCents q = (n : ℚ) / 100 := by
  unfold roundCents
  rw [show (⌊q * 100 + 1/2⌋ : ℤ) = n from Int.floor_eq_iff.mpr ⟨h1, h2⟩]

theorem evaluateBilling_check_order_witness :
    evaluateBilling none 0 ⟨none⟩ =
      { shouldRun := false, reason := BillingReason.noActiveBlock, availableBudget := 0 } ∧
    evaluateBilling (some ⟨120, 5⟩) 20 ⟨none⟩ =
      { shouldRun := true, reason := BillingReason.blockUnderused 5 15 120 10
        availableBudget := 10 } := by
  constructor
  · exact (evaluateBilling_check_order none 0 ⟨none⟩).1 rfl
  · have h := ((evaluateBilling_check_order (some ⟨120, 5⟩) 20 ⟨none⟩).2 ⟨120, 5⟩ rfl).2.2.2
      (by norm_num [effMinRemaining]) (by norm_num [effMaxBlockCost])
      (by norm_num [effWeeklyBudget])
    rw [h]
    have hmin : min (effWeeklyBudget ⟨none⟩ - 20)
        (effMaxBlockCost ⟨none⟩ - (⟨120, 5⟩ : BillingBlock).totalCost) = 10 := by
      norm_num [effWeeklyBudget, effMaxBlockCost, min_def]
    rw [hmin, roundCents_eval (n := 1000) (by norm_num) (by norm_num)]
    norm_num [effMaxBlockCost, BillingDecision.mk.injEq]

/-- Closed form of the `availableBudget` field of the billing-block
`evaluate`, used by the monotonicity and invariant proofs. -/
theorem availableBudget_eq (b : BillingBlock) (w : ℚ) (config : BillingConfig) :
    (evaluateBilling (some b) w config).availableBudget =
      if b.remainingMinutes < effMinRemaining config then 0
      else if b.totalCost > effMaxBlockCost config then 0
      else if w ≥ effWeeklyBudget config then 0
      else roundCents (min (effWeeklyBudget config - w)
        (effMaxBlockCost config - b.totalCost)) := by
  simp only [evaluateBilling]
  split_ifs <;> rfl

/-- C9: on every skip branch the billing-block `evaluate` returns
`availableBudget = 0` exactly; `shouldRun = true` guarantees only
`availableBudget ≥ 0`; and when `block.totalCost` equals
`maxBlockCostUSD` (the strict `>` check passing) while the other checks
pass, it returns `shouldRun = true` with `availableBudget = 0`. -/
theorem evaluateBilling_budget_invariant (block : Option BillingBlock) (weeklyCost : ℚ)
    (config : BillingConfig) :
    ((evaluateBilling block weeklyCost config).shouldRun = false →
      (evaluateBilling block weeklyCost config).availableBudget = 0) ∧
    ((evaluateBilling block weeklyCost config).shouldRun = true →
      0 ≤ (evaluateBilling block weeklyCost config).availableBudget) ∧
    (∀ b, block = some b →
      b.totalCost = effMaxBlockCost config →
      effMinRemaining config ≤ b.remainingMinutes →
      weeklyCost < effWeeklyBudget config →
      (evaluateBilling block weeklyCost config).shouldRun = true ∧
        (evaluateBilling block weeklyCost config).availableBudget = 0) := by
  refine ⟨?_, ?_, ?_⟩
  · cases block with
    | none => intro _; rfl
    | some b =>
        simp only [evaluateBilling]
        split_ifs
        · intro _; rfl
        · intro _; rfl
        · intro _; rfl
        · intro hfalse
          exact absurd hfalse (by simp)
  · cases block with
    | none =>
        intro htrue
        exact absurd htrue (by simp [evaluateBilling])
    | some b =>
        simp only [evaluateBilling]
        split_ifs with h1 h2 h3
        · intro htrue; exact absurd htrue (by simp)
        · intro htrue; exact absurd htrue (by simp)
        · intro htrue; exact absurd htrue (by simp)
        · intro _
          rw [not_lt] at h2
          rw [not_le] at h3
          exact roundCents_nonneg (le_min (by linarith) (by linarith))
  · rintro b rfl heq hrm hw
    have hno2 : ¬ b.totalCost > effMaxBlockCost config := by rw [heq]; exact lt_irrefl _
    constructor
    · simp only [evaluateBilling]
      rw [if_neg (not_lt.mpr hrm), if_neg hno2, if_neg (not_le.mpr hw)]
    · rw [availableBudget_eq]
      rw [if_neg (not_lt.mpr hrm), if_neg hno2, if_neg (not_le.mpr hw)]
      rw [heq, sub_self, min_eq_right (by linarith), roundCents_zero]

theorem evaluateBilling_budget_invariant_witness :
    (evaluateBilling none 0 ⟨none⟩).shouldRun = false ∧
    (evaluateBilling none 0 ⟨none⟩).availableBudget = 0 ∧
    (evaluateBilling (some ⟨120, 15⟩) 20 ⟨none⟩).shouldRun = true ∧
    (evaluateBilling (some ⟨120, 15⟩) 20 ⟨none⟩).availableBudget = 0 := by
  have h1 := (evaluateBilling_budget_invariant none 0 ⟨none⟩).1 rfl
  have h2 := (evaluateBilling_budget_invariant (some ⟨120, 15⟩) 20 ⟨none⟩).2.2 ⟨120, 15⟩ rfl
    (by norm_num [effMaxBlockCost]) (by norm_num [effMinRemaining])
    (by norm_num [effWeeklyBudget])
  exact ⟨rfl, h1, h2.1, h2.2⟩

/-- C6: for a fixed config and block, the `availableBudget` of the
billing-block `evaluate` is antitone in `weeklyCost` and in `block.totalCost` —
decreasing either input, all else equal, never decreases the returned
`availableBudget`, including across the skip/run boundary where a skip
yields budget 0. -/
theorem evaluateBilling_budget_antitone (config : BillingConfig) (block : Option BillingBlock)
    (rm w w' c c' : ℚ) :
    (w' ≤ w →
      (evaluateBilling block w config).availableBudget ≤
        (evaluateBilling block w' config).availableBudget) ∧
    (c' ≤ c →
      (evaluateBilling (some ⟨rm, c⟩) w config).availableBudget ≤
        (evaluateBilling (some ⟨rm, c'⟩) w config).availableBudget) := by
  constructor
  · intro hle
    cases block with
    | none => exact le_refl _
    | some b =>
        rw [availableBudget_eq, availableBudget_eq]
        by_cases h1 : b.remainingMinutes < effMinRemaining config
        · rw [if_pos h1, if_pos h1]
        · rw [if_neg h1, if_neg h1]
          by_cases h2 : b.totalCost > effMaxBlockCost config
          · rw [if_pos h2, if_pos h2]
          · rw [if_neg h2, if_neg h2]
            by_cases h4 : w' ≥ effWeeklyBudget config
            · rw [if_pos (le_trans h4 hle), if_pos h4]
            · rw [if_neg h4]
              by_cases h3 : w ≥ effWeeklyBudget config
              · rw [if_pos h3]
                rw [not_lt] at h2
                rw [not_le] at h4
                exact roundCents_nonneg (le_min (by linarith) (by linarith))
              · rw [if_neg h3]
                exact roundCents_mono (min_le_min (by linarith) (le_refl _))
  · intro hle
    rw [availableBudget_eq, availableBudget_eq]
    by_cases h1 : rm < effMinRemaining config
    · rw [if_pos h1, if_pos h1]
    · rw [if_neg h1, if_neg h1]
      by_cases h2' : c' > effMaxBlockCost config
      · rw [if_pos (lt_of_lt_of_le h2' hle), if_pos h2']
      · rw [if_neg h2']
        by_cases h2 : c > effMaxBlockCost config
        · rw [if_pos h2]
          by_cases h3 : w ≥ effWeeklyBudget config
          · rw [if_pos h3]
          · rw [if_neg h3]
            rw [not_lt] at h2'
            rw [not_le] at h3
            exact roundCents_nonneg (le_min (by linarith) (by linarith))
        · rw [if_neg h2]
          by_cases h3 : w ≥ effWeeklyBudget config
          · rw [if_pos h3, if_pos h3]
          · rw [if_neg h3, if_neg h3]
            exact roundCents_mono (min_le_min (le_refl _) (by linarith))

theorem evaluateBilling_budget_antitone_witness :
    (evaluateBilling (some ⟨120, 5⟩) 100 ⟨none⟩).availableBudget ≤
      (evaluateBilling (some ⟨120, 5⟩) 20 ⟨none⟩).availableBudget ∧
    (evaluateBilling (some ⟨120, 16⟩) 20 ⟨none⟩).availableBudget ≤
      (evaluateBilling (some ⟨120, 5⟩) 20 ⟨none⟩).availableBudget := by
  constructor
  · exact (evaluateBilling_budget_antitone ⟨none⟩ (some ⟨120, 5⟩) 120 100 20 0 0).1
      (by norm_num)
  · exact (evaluateBilling_budget_antitone ⟨none⟩ none 120 20 20 16 5).2 (by norm_num)

/-- C8: `isQuietHours` suppresses exactly the interval `[start, end)` of
local minutes-since-midnight when `start <= end`, and the wrapped
interval `[start, 1440) ∪ [0, end)` when `start > end`; with start
`23:00` and end `07:00`, minutes 23:30, 02:00 and 06:59 are suppressed
while 07:00, 12:00 and 22:59 are not; with both bounds null nothing is
ever suppressed. -/
theorem isQuietHours_wrap_spec (s e : String) (m : ℕ) :
    (m < 1440 →
      (isQuietHours (some s) (some e) m = true ↔
        (if parseTime s ≤ parseTime e then parseTime s ≤ m ∧ m < parseTime e
         else (parseTime s ≤ m ∧ m < 1440) ∨ m < parseTime e))) ∧
    isQuietHours none none m = false ∧
    isQuietHours (some ("23:00")) (some ("07:00")) 1410 = true ∧
    isQuietHours (some ("23:00")) (some ("07:00")) 120 = true ∧
    isQuietHours (some ("23:00")) (some ("07:00")) 419 = true ∧
    isQuietHours (some ("23:00")) (some ("07:00")) 420 = false ∧
    isQuietHours (some ("23:00")) (some ("07:00")) 720 = false ∧
    isQuietHours (some ("23:00")) (some ("07:00")) 1379 = false := by
  refine ⟨?_, rfl, rfl, rfl, rfl, rfl, rfl, rfl⟩
  intro hm
  simp only [isQuietHours]
  by_cases h : parseTime s ≤ parseTime e
  · rw [if_pos h, if_pos h]
    simp only [Bool.and_eq_true, decide_eq_true_eq]
  · rw [if_neg h, if_neg h]
    simp only [Bool.or_eq_true, decide_eq_true_eq]
    constructor
    · rintro (h1 | h2)
      · exact Or.inl ⟨h1, hm⟩
      · exact Or.inr h2
    · rintro (⟨h1, _⟩ | h2)
      · exact Or.inl h1
      · exact Or.inr h2

theorem isQuietHours_wrap_spec_witness :
    isQuietHours (some ("23:00")) (some ("07:00")) 120 = true ↔
      (if parseTime ("23:00") ≤ parseTime ("07:00") then
        parseTime ("23:00") ≤ 120 ∧ 120 < parseTime ("07:00")
       else (parseTime ("23:00") ≤ 120 ∧ 120 < 1440) ∨ 120 < parseTime ("07:00")) :=
  (isQuietHours_wrap_spec ("23:00") ("07:00") 120).1 (by norm_num)

/-- C2 (amended): for every snapshot whose `statusCode` is not 429, if
some window has a truthy (non-empty) status other than `allowed`, the
rate-limit `evaluate` returns `shouldRun = false` with `bindingWindow`
equal to the first such offending window in iteration order, and the
reason reports that window's name and utilization. -/
theorem evaluateRL_first_blocked (rl : RateLimits) (config : RLConfig) (now : ℚ)
    (h429 : rl.statusCode ≠ some 429)
    (hblocked : ∃ p ∈ rl.windows, isBlockedStatus p.2.status = true) :
    ∃ l1 l2 p, rl.windows = l1 ++ p :: l2 ∧
      isBlockedStatus p.2.status = true ∧
      (∀ q ∈ l1, isBlockedStatus q.2.status = false) ∧
      evaluateRL (some rl) config now =
        { shouldRun := false
          reason := RLReason.windowBlocked p.1 (p.2.status.getD ("")) p.2.utilization
          bindingWindow := some p.1
          utilization := p.2.utilization } := by
  have hne : findBlocked rl.windows ≠ none := by
    intro h0
    obtain ⟨p, hp, hb⟩ := hblocked
    rw [(findBlocked_eq_none_iff rl.windows).mp h0 p hp] at hb
    exact Bool.false_ne_true hb
  cases hfb : findBlocked rl.windows with
  | none => exact absurd hfb hne
  | some p =>
      obtain ⟨hb, l1, l2, hdec, hclean⟩ := findBlocked_spec _ p hfb
      refine ⟨l1, l2, p, hdec, hb, hclean, ?_⟩
      have hempty : ¬ rl.windows.isEmpty = true := by
        rw [hdec]
        cases l1 <;> simp
      simp only [evaluateRL, if_neg h429, if_neg hempty]
      rw [hfb]

/-- Snapshot for the C2 witness: not rate-limited, first window blocked. -/
def blockedSnap : RateLimits :=
  { windows := [(("5h"), { utilization := some (9/10), status := some ("rejected"), reset := none }),
                (("7d"), { utilization := some (1/10), status := some ("allowed"), reset := none })]
    meta := { representativeClaim := some ("5h") }
    statusCode := some 200 }

theorem evaluateRL_first_blocked_witness :
    ∃ l1 l2 p, blockedSnap.windows = l1 ++ p :: l2 ∧
      isBlockedStatus p.2.status = true ∧
      (∀ q ∈ l1, isBlockedStatus q.2.status = false) ∧
      evaluateRL (some blockedSnap) ⟨none⟩ 0 =
        { shouldRun := false
          reason := RLReason.windowBlocked p.1 (p.2.status.getD ("")) p.2.utilization
          bindingWindow := some p.1
          utilization := p.2.utilization } :=
  evaluateRL_first_blocked blockedSnap ⟨none⟩ 0 (by decide) (by decide)

/-- Snapshot refuting C2 as stated: a window has status `rejected`, but
the snapshot also reports HTTP 429, which is checked first. -/
def rateLimitedSnap : RateLimits :=
  { windows := [(("5h"), { utilization := some (9/10), status := some ("rejected"), reset := none })]
    meta := { representativeClaim := some ("5h") }
    statusCode := some 429 }

/-- C2 counterexample: this snapshot has a window with status other than
`allowed`, yet `evaluate` returns `bindingWindow = none` (reason
`rateLimited429`), not that window — the 429 check precedes the blocked-
window loop. -/
theorem evaluateRL_first_blocked_counterexample :
    (∃ p ∈ rateLimitedSnap.windows, isBlockedStatus p.2.status = true) ∧
    (evaluateRL (some rateLimitedSnap) ⟨none⟩ 0).shouldRun = false ∧
    (evaluateRL (some rateLimitedSnap) ⟨none⟩ 0).bindingWindow = none ∧
    (evaluateRL (some rateLimitedSnap) ⟨none⟩ 0).reason = RLReason.rateLimited429 := by
  refine ⟨by decide, rfl, rfl, rfl⟩

/-- Erase the clock-dependent reset-countdown suffix from a run-branch
reason. -/
def stripResetInfo : RLReason → RLReason
  | RLReason.capacityAvailable n u _ => RLReason.capacityAvailable n u none
  | r => r

/-- Erase the clock-dependent part of a Decision: everything except the
run-branch reason's reset-countdown suffix. -/
def scrubClock (d : RLDecision) : RLDecision :=
  { d with reason := stripResetInfo d.reason }

/-- C7 (amended): the rate-limit `evaluate` is a pure function of the
snapshot, the config and the current clock; every Decision field is
independent of the clock except the optional `resets <duration>` suffix
of the run-branch reason string (the billing-block `evaluateBilling`
reads no clock at all, so it is deterministic in snapshot and config by
construction). -/
theorem evaluateRL_clock_influence (rl : Option RateLimits) (config : RLConfig)
    (now now' : ℚ) :
    scrubClock (evaluateRL rl config now) = scrubClock (evaluateRL rl config now') := by
  cases rl with
  | none => rfl
  | some r =>
      simp only [evaluateRL]
      by_cases h1 : r.statusCode = some 429
      · rw [if_pos h1, if_pos h1]
      · rw [if_neg h1, if_neg h1]
        by_cases h2 : r.windows.isEmpty = true
        · rw [if_pos h2, if_pos h2]
        · rw [if_neg h2, if_neg h2]
          cases hfb : findBlocked r.windows with
          | some p => rfl
          | none =>
              cases hact : activeWindow r with
              | none => rfl
              | some aw =>
                  by_cases hu : aw.2.utilization.getD 0 ≥ effMaxUtilization config
                  · simp only [hu, if_true]
                  · simp only [hu, if_false, scrubClock, stripResetInfo]

/-- Snapshot for the C7 counterexample: an allowed window with a future
reset time, so the run-branch reason embeds a clock-dependent countdown. -/
def resetSnap : RateLimits :=
  { windows := [(("5h"),
      { utilization := some (1/2), status := some ("allowed"), reset := some 1000 })]
    meta := { representativeClaim := some ("5h") }
    statusCode := some 200 }

/-- Evaluation of the rate-limit `evaluate` on `resetSnap` at an
arbitrary clock instant. -/
theorem resetSnap_eval (now : ℚ) :
    evaluateRL (some resetSnap) ⟨none⟩ now =
      { shouldRun := true
        reason := RLReason.capacityAvailable ("5h") (1/2) (resetSuffix (some 1000) now)
        bindingWindow := some ("5h")
        utilization := some (1/2) } := by
  have hu : ¬ ((1:ℚ)/2 ≥ effMaxUtilization ⟨none⟩) := by
    norm_num [effMaxUtilization]
  simp only [evaluateRL]
  rw [if_neg (by decide : ¬ resetSnap.statusCode = some 429),
    if_neg (by decide : ¬ resetSnap.windows.isEmpty = true),
    show findBlocked resetSnap.windows = none from rfl,
    show activeWindow resetSnap = some (("5h"),
      { utilization := some (1/2), status := some ("allowed"), reset := some 1000 }) from rfl]
  simp only [Option.getD]
  rw [if_neg hu]

theorem clock_counterexample_suffix_at_zero :
    resetSuffix (some 1000) 0 = some (("in ") ++ toString (17 : ℤ) ++ ("m")) := by
  simp only [resetSuffix]
  rw [if_neg (by norm_num : ¬ (1000:ℚ) = 0),
    if_pos (by norm_num : (1000:ℚ) * 1000 - 0 > 0),
    show (1000:ℚ) * 1000 - 0 = 1000000 by norm_num]
  simp only [formatDuration]
  have hc : (⌈(1000000:ℚ) / 60000⌉ : ℤ) = 17 := by
    rw [Int.ceil_eq_iff]
    constructor <;> norm_num
  rw [if_neg (by norm_num : ¬ (1000000:ℚ) ≤ 0), hc,
    if_pos (by norm_num : (17:ℤ) < 60)]

theorem clock_counterexample_suffix_later :
    resetSuffix (some 1000) 1000000000 = none := by
  simp only [resetSuffix]
  rw [if_neg (by norm_num : ¬ (1000:ℚ) = 0),
    if_neg (by norm_num : ¬ ((1000:ℚ) * 1000 - 1000000000 > 0))]

/-- C7 counterexample: two calls of the rate-limit `evaluate` on the very
same snapshot and config but at different clock instants return different
Decision records — at `now = 0` the reason carries a `resets in 17m`
countdown, at a later instant it does not — refuting clock independence
of the full Decision record. -/
theorem evaluateRL_clock_influence_counterexample :
    evaluateRL (some resetSnap) ⟨none⟩ 0 ≠ evaluateRL (some resetSnap) ⟨none⟩ 1000000000 ∧
    (evaluateRL (some resetSnap) ⟨none⟩ 0).reason =
      RLReason.capacityAvailable ("5h") (1/2) (some (("in ") ++ toString (17 : ℤ) ++ ("m"))) ∧
    (evaluateRL (some resetSnap) ⟨none⟩ 1000000000).reason =
      RLReason.capacityAvailable ("5h") (1/2) none := by
  have hr0 : (evaluateRL (some resetSnap) ⟨none⟩ 0).reason =
      RLReason.capacityAvailable ("5h") (1/2) (some (("in ") ++ toString (17 : ℤ) ++ ("m"))) := by
    rw [resetSnap_eval 0]
    show RLReason.capacityAvailable ("5h") (1/2) (resetSuffix (some 1000) 0) = _
    rw [clock_counterexample_suffix_at_zero]
  have hr1 : (evaluateRL (some resetSnap) ⟨none⟩ 1000000000).reason =
      RLReason.capacityAvailable ("5h") (1/2) none := by
    rw [resetSnap_eval 1000000000]
    show RLReason.capacityAvailable ("5h") (1/2) (resetSuffix (some 1000) 1000000000) = _
    rw [clock_counterexample_suffix_later]
  refine ⟨?_, hr0, hr1⟩
  intro heq
  have h := congrArg RLDecision.reason heq
  rw [hr0, hr1] at h
  simp only [RLReason.capacityAvailable.injEq] at h
  exact Option.some_ne_none _ h.2.2

/-- A window never excluded when no budget ceiling is supplied:
`t.maxBudgetUSD > undefined` is `false` in JavaScript. -/
theorem budgetExcluded_none (t : BurnTask) : budgetExcluded t none = false := by
  cases h : t.maxBudgetUSD <;> simp [budgetExcluded]

/-- C3 (amended): for every queue and supplied budget ceiling, `pickTask`
returns only a task with status `on` whose `maxBudgetUSD`, when nonzero,
does not exceed the ceiling, chosen as the minimum-priority candidate
(missing priority defaulting to 999) with ties broken by original list
order (stable sort), and returns `none` exactly when no candidate
remains. -/
theorem pickTask_select_spec (data : TaskData) (a : ℚ) :
    (pickTask data (some a) = none ↔ candidates data (some a) = []) ∧
    (∀ t, pickTask data (some a) = some t →
      t.status = ("on") ∧
      (∀ mb, t.maxBudgetUSD = some mb → mb ≠ 0 → mb ≤ a) ∧
      (∀ u ∈ candidates data (some a), taskPrio t ≤ taskPrio u) ∧
      ∃ l1 l2, candidates data (some a) = l1 ++ t :: l2 ∧
        ∀ u ∈ l1, taskPrio t < taskPrio u) := by
  constructor
  · exact firstMinBy_eq_none_iff taskPrio (candidates data (some a))
  · intro t ht
    obtain ⟨hmin, l1, l2, hdec, hstrict⟩ := firstMinBy_spec taskPrio _ t ht
    have htmem : t ∈ candidates data (some a) := by
      rw [hdec]; exact List.mem_append_right _ (List.mem_cons_self _ _)
    have htmem2 : t ∈ ((data.tasks.getD []).filter (fun u => u.status == ("on"))).filter
        (fun u => !budgetExcluded u (some a)) := htmem
    have hbud : (!budgetExcluded t (some a)) = true := (List.mem_filter.mp htmem2).2
    have hstat : (t.status == ("on")) = true :=
      (List.mem_filter.mp (List.mem_filter.mp htmem2).1).2
    refine ⟨by simpa using hstat, ?_, hmin, l1, l2, hdec, hstrict⟩
    intro mb hmb hne
    rw [Bool.not_eq_true'] at hbud
    unfold budgetExcluded at hbud
    rw [hmb] at hbud
    simp only [Bool.and_eq_false_iff, Bool.not_eq_false', beq_iff_eq,
      decide_eq_false_iff_not, not_lt] at hbud
    rcases hbud with h0 | hle
    · exact absurd h0 hne
    · exact hle

/-- A task with status `on` and `maxBudgetUSD = 0` for the C3
counterexample. -/
def zeroBudgetTask : BurnTask :=
  { id := ("t1"), name := ("Zero budget"), status := ("on"), priority := none
    maxBudgetUSD := some 0, «repeat» := false }

/-- C3 counterexample: with a supplied (negative) ceiling, `pickTask`
returns a task whose `maxBudgetUSD` (0, falsy in JavaScript) exceeds the
ceiling — the budget filter only applies to truthy `maxBudgetUSD`. -/
theorem pickTask_select_counterexample :
    pickTask ⟨some [zeroBudgetTask]⟩ (some (-1)) = some zeroBudgetTask ∧
    zeroBudgetTask.maxBudgetUSD = some 0 ∧ ((0:ℚ) > -1) := by
  refine ⟨?_, rfl, by norm_num⟩
  rfl

theorem pickTask_select_spec_witness :
    zeroBudgetTask.status = ("on") ∧
    (∀ u ∈ candidates ⟨some [zeroBudgetTask]⟩ (some 100), taskPrio zeroBudgetTask ≤ taskPrio u) := by
  have h := (pickTask_select_spec ⟨some [zeroBudgetTask]⟩ 100).2 zeroBudgetTask rfl
  exact ⟨h.1, h.2.2.1⟩

/-- C10: the budget filter of `pickTask` applies only when a task's
`maxBudgetUSD` is truthy (present and nonzero) and exceeds a *supplied*
ceiling: a task with `maxBudgetUSD` equal to 0 or absent is never
excluded by budget, and when `pickTask` is called with no
`availableBudget` argument (as the rate-limit variant's cycle does) no
task is excluded by budget at all. -/
theorem pickTask_budget_truthiness (t : BurnTask) (a : Option ℚ) (data : TaskData) :
    ((t.maxBudgetUSD = some 0 ∨ t.maxBudgetUSD = none) → budgetExcluded t a = false) ∧
    budgetExcluded t none = false ∧
    pickTask data none = firstMinBy taskPrio
      ((data.tasks.getD []).filter (fun u => u.status == ("on"))) := by
  refine ⟨?_, budgetExcluded_none t, ?_⟩
  · rintro (h | h) <;> cases a <;> simp [budgetExcluded, h]
  · show firstMinBy taskPrio (candidates data none) = _
    congr 1
    unfold candidates
    rw [List.filter_eq_self.mpr]
    intro u _
    rw [budgetExcluded_none u]
    rfl

/-- A task with no `maxBudgetUSD` at all, for the C10 witness. -/
def noBudgetTask : BurnTask :=
  { id := ("t2"), name := ("No budget"), status := ("on"), priority := some 1
    maxBudgetUSD := none, «repeat» := true }

theorem pickTask_budget_truthiness_witness :
    budgetExcluded noBudgetTask (some 100) = false ∧
    pickTask ⟨some [noBudgetTask]⟩ none = some noBudgetTask := by
  constructor
  · exact (pickTask_budget_truthiness noBudgetTask (some 100) ⟨some [noBudgetTask]⟩).1
      (Or.inr rfl)
  · rw [(pickTask_budget_truthiness noBudgetTask none ⟨some [noBudgetTask]⟩).2.2]
    rfl

/-- Lemma: `updateTaskStatus` touches no task other than (the first task with)
the given id. -/
theorem mem_of_mem_updateTaskStatus {d : TaskData} {tid s : String} {u : BurnTask}
    (hu : u ∈ (updateTaskStatus d tid s).tasks.getD []) (hne : u.id ≠ tid) :
    u ∈ d.tasks.getD [] := by
  cases hd : d.tasks with
  | none =>
      simp only [updateTaskStatus, hd] at hu
      exact hu
  | some l =>
      simp only [updateTaskStatus, hd, Option.getD] at hu ⊢
      exact mem_of_mem_setStatusFirst hu hne

/-- C4: in every cycle that reaches execution (run decision, eligible
task, not dry-run), the selected task's status is set to `running` and
persisted strictly before the Executor is invoked, and afterwards exactly
one transition is persisted — `running → done` on success with
`repeat = false`, `running → on` on success with `repeat = true`,
`running → failed` on failure (`statusAfter`) — the trace contains
exactly these events in this order, and no task other than the selected
one is touched. -/
theorem runCycle_lifecycle (rl : Option RateLimits) (config : RLConfig) (now : ℚ)
    (queue : TaskData) (res : ExecResult) (t : BurnTask)
    (hrun : (evaluateRL rl config now).shouldRun = true)
    (hpick : pickTask queue none = some t) :
    runCycle rl config now queue false res =
      ([CycleEvent.select t.id,
        CycleEvent.persistQueue (updateTaskStatus queue t.id ("running")),
        CycleEvent.execute t.id,
        CycleEvent.persistQueue
          (updateTaskStatus (updateTaskStatus queue t.id ("running")) t.id
            (statusAfter t res)),
        CycleEvent.appendHistory
          ⟨t.id, t.name, res.success, res.costUSD, res.durationMs, res.error⟩],
       updateTaskStatus (updateTaskStatus queue t.id ("running")) t.id
         (statusAfter t res)) ∧
    ∀ u ∈ (runCycle rl config now queue false res).2.tasks.getD [], u.id ≠ t.id →
      u ∈ queue.tasks.getD [] := by
  have h : runCycle rl config now queue false res =
      ([CycleEvent.select t.id,
        CycleEvent.persistQueue (updateTaskStatus queue t.id ("running")),
        CycleEvent.execute t.id,
        CycleEvent.persistQueue
          (updateTaskStatus (updateTaskStatus queue t.id ("running")) t.id
            (statusAfter t res)),
        CycleEvent.appendHistory
          ⟨t.id, t.name, res.success, res.costUSD, res.durationMs, res.error⟩],
       updateTaskStatus (updateTaskStatus queue t.id ("running")) t.id
         (statusAfter t res)) := by
    simp [runCycle, hrun, hpick]
  refine ⟨h, ?_⟩
  intro u hu hne
  rw [h] at hu
  exact mem_of_mem_updateTaskStatus (mem_of_mem_updateTaskStatus hu hne) hne

/-- C5: with a run decision and an eligible task, a dry-run cycle
performs no state mutation: the trace holds only the read-only selection
announcement — no queue write, no history append, no process spawn — and
the queue state is returned unchanged; the short-circuit sits after task
selection (the `select` event is emitted) and before any mutating event. -/
theorem runCycle_dryRun_pure (rl : Option RateLimits) (config : RLConfig) (now : ℚ)
    (queue : TaskData) (res : ExecResult) (t : BurnTask)
    (hrun : (evaluateRL rl config now).shouldRun = true)
    (hpick : pickTask queue none = some t) :
    runCycle rl config now queue true res = ([CycleEvent.select t.id], queue) ∧
    (runCycle rl config now queue true res).2 = queue ∧
    ∀ e ∈ (runCycle rl config now queue true res).1, eventMutates e = false := by
  have h : runCycle rl config now queue true res = ([CycleEvent.select t.id], queue) := by
    simp [runCycle, hrun, hpick]
  refine ⟨h, by rw [h], ?_⟩
  intro e he
  rw [h] at he
  simp only [List.mem_singleton] at he
  subst he
  rfl

/-- Example task, queue and executor outcome for the cycle witnesses. -/
def exTask : BurnTask :=
  { id := ("t1"), name := ("Task One"), status := ("on"), priority := some 1
    maxBudgetUSD := none, «repeat» := false }

/-- See `exTask`. -/
def exQueue : TaskData := ⟨some [exTask]⟩

/-- See `exTask`. -/
def exRes : ExecResult :=
  { success := true, costUSD := none, durationMs := some 1000, error := none }

theorem runCycle_lifecycle_witness :
    runCycle (some resetSnap) ⟨none⟩ 0 exQueue false exRes =
      ([CycleEvent.select exTask.id,
        CycleEvent.persistQueue (updateTaskStatus exQueue exTask.id ("running")),
        CycleEvent.execute exTask.id,
        CycleEvent.persistQueue
          (updateTaskStatus (updateTaskStatus exQueue exTask.id ("running")) exTask.id
            (statusAfter exTask exRes)),
        CycleEvent.appendHistory
          ⟨exTask.id, exTask.name, exRes.success, exRes.costUSD, exRes.durationMs,
            exRes.error⟩],
       updateTaskStatus (updateTaskStatus exQueue exTask.id ("running")) exTask.id
         (statusAfter exTask exRes)) :=
  (runCycle_lifecycle (some resetSnap) ⟨none⟩ 0 exQueue exRes exTask
    (by rw [resetSnap_eval 0]) rfl).1

theorem runCycle_dryRun_pure_witness :
    runCycle (some resetSnap) ⟨none⟩ 0 exQueue true exRes =
      ([CycleEvent.select exTask.id], exQueue) :=
  (runCycle_dryRun_pure (some resetSnap) ⟨none⟩ 0 exQueue exRes exTask
    (by rw [resetSnap_eval 0]) rfl).1
